import Mathlib

set_option maxRecDepth 8000

/-!
Shallow embedding of `paypal/response.py` (class `PayPalResponse`).

The query-string decoding follows `urlparse.parse_qs` / `urllib.parse.parse_qs`
with its default arguments (`keep_blank_values=False`, `strict_parsing=False`):
chunks are split on the separators, a chunk without a separator-free name=value
shape or with an empty encoded value is dropped, plus signs become spaces, and
percent escapes are decoded byte-wise (the ASCII fragment, which is all this
repository's data uses).  Strings are modelled by Lean `String` with ASCII
`Char.toUpper` standing for Python `str.upper`.

Fallible Python operations are modelled with `Except PyErr`:
`KeyError` raised by `__getitem__`, the `AttributeError` raised by
`__getattr__` for a missing response field, and the `AttributeError` raised by
calling `.upper()` on a list value.
-/

/-- Python `str.upper()` on the ASCII fragment, applied characterwise. -/
def pyUpper (s : String) : String :=
  String.mk (s.toList.map Char.toUpper)

/-- Value of a hexadecimal digit character, `none` for non-hex characters. -/
def hexDigit (c : Char) : Option Nat :=
  if 48 ≤ c.toNat ∧ c.toNat ≤ 57 then some (c.toNat - 48)
  else if 65 ≤ c.toNat ∧ c.toNat ≤ 70 then some (c.toNat - 55)
  else if 97 ≤ c.toNat ∧ c.toNat ≤ 102 then some (c.toNat - 87)
  else none

/-- Byte-level `unquote`: a valid `%XX` escape becomes the escaped character,
an invalid escape is copied verbatim, everything else is copied. -/
def unquote : List Char → List Char
  | [] => []
  | '%' :: a :: b :: rest =>
    match hexDigit a, hexDigit b with
    | some hi, some lo => Char.ofNat (16 * hi + lo) :: unquote rest
    | _, _ => '%' :: unquote (a :: b :: rest)
  | c :: rest => c :: unquote rest

/-- Replacement of `+` by a space, applied before `unquote` as in `parse_qsl`. -/
def plusToSpace (cs : List Char) : List Char :=
  cs.map fun c => if c = '+' then ' ' else c

/-- Decoding of one encoded name or value. -/
def qsDecode (cs : List Char) : String :=
  String.mk (unquote (plusToSpace cs))

/-- Splitting of the query string on the separators `&` and `;`
(`parse_qsl` splits on both). -/
def splitSep : List Char → List Char → List (List Char)
  | [], acc => [acc.reverse]
  | c :: rest, acc =>
    if c = '&' ∨ c = ';' then acc.reverse :: splitSep rest []
    else splitSep rest (c :: acc)

/-- Split of a chunk on its first `=`; `none` when no `=` occurs. -/
def splitEq : List Char → Option (List Char × List Char)
  | [] => none
  | c :: rest =>
    if c = '=' then some ([], rest)
    else
      match splitEq rest with
      | none => none
      | some p => some (c :: p.1, p.2)

/-- `parse_qsl` with default arguments: chunks without `=` and chunks whose
encoded value is empty are dropped, surviving names and values are decoded. -/
def parse_qsl (qs : String) : List (String × String) :=
  (splitSep qs.toList []).filterMap fun chunk =>
    match splitEq chunk with
    | none => none
    | some p => if p.2 = [] then none else some (qsDecode p.1, qsDecode p.2)

/-- The decoded mapping: an insertion-ordered association list from field name
to the ordered list of that field's values. -/
abbrev RawDict := List (String × List String)

/-- One `parse_qs` accumulation step: append the value to an existing entry for
the (case-sensitively) same name, otherwise add a new entry at the end. -/
def dictAppend : RawDict → String → String → RawDict
  | [], k, v => [(k, [v])]
  | (k1, vs) :: rest, k, v =>
    if k1 = k then (k1, vs ++ [v]) :: rest
    else (k1, vs) :: dictAppend rest k v

/-- `parse_qs`: fold the decoded pairs into the multi-value dictionary. -/
def parse_qs (qs : String) : RawDict :=
  (parse_qsl qs).foldl (fun d p => dictAppend d p.1 p.2) []

/-- Dictionary lookup in the association list (names in `raw` are distinct, so
first-match lookup is the Python `dict` lookup). -/
def alistFind : RawDict → String → Option (List String)
  | [], _ => none
  | (k1, vs) :: rest, k => if k = k1 then some vs else alistFind rest k

/-- The configuration collaborator: the two success-token members used by the
`success` property. -/
structure PayPalConfig where
  ACK_SUCCESS : String
  ACK_SUCCESS_WITH_WARNING : String
  deriving DecidableEq

/-- The state of a `PayPalResponse` object: the decoded `raw` mapping and the
`config` reference stored by `__init__`. -/
structure PayPalResponse where
  raw : RawDict
  config : PayPalConfig
  deriving DecidableEq

/-- A value as returned by `__getitem__`: the bare string for a one-element
list, otherwise the list itself. -/
inductive PyValue where
  | scalar (s : String)
  | seq (vs : List String)
  deriving DecidableEq

/-- The exceptions this code can raise: `KeyError` from `__getitem__`, the
`AttributeError` that `__getattr__` raises for a missing response field, and
the `AttributeError` raised by asking an object (here: a list) for a method it
does not have. -/
inductive PyErr where
  | keyError (key : String)
  | fieldAttributeError (name : String)
  | objectAttributeError (typeName attrName : String)
  deriving DecidableEq

instance {ε α : Type} [DecidableEq ε] [DecidableEq α] : DecidableEq (Except ε α) := fun a b =>
  match a, b with
  | .ok x, .ok y =>
    if h : x = y then isTrue (by rw [h]) else isFalse (by intro hc; cases hc; exact h rfl)
  | .error x, .error y =>
    if h : x = y then isTrue (by rw [h]) else isFalse (by intro hc; cases hc; exact h rfl)
  | .ok _, .error _ => isFalse (by intro hc; cases hc)
  | .error _, .ok _ => isFalse (by intro hc; cases hc)

/-- `__getitem__`: uppercase the requested key, look it up in `raw`
(a miss is a `KeyError` carrying the uppercased key), and collapse a
one-element value list to its single element. -/
def getitem (r : PayPalResponse) (key : String) : Except PyErr PyValue :=
  match alistFind r.raw (pyUpper key) with
  | none => .error (.keyError (pyUpper key))
  | some [v] => .ok (.scalar v)
  | some vs => .ok (.seq vs)

/-- `__getattr__`: delegate to `__getitem__` and re-raise its `KeyError` as an
`AttributeError` carrying the name exactly as it was passed in. -/
def getattrMethod (r : PayPalResponse) (key : String) : Except PyErr PyValue :=
  match getitem r key with
  | .error (.keyError _) => .error (.fieldAttributeError key)
  | v => v

/-- The `.upper()` call made by the `success` property: defined on a string,
an `AttributeError` on a list. -/
def pyUpperValue : PyValue → Except PyErr String
  | .scalar s => .ok (pyUpper s)
  | .seq _ => .error (.objectAttributeError "list" "upper")

/-- Body of the `success` property: `self.ack.upper()` compared against the
two configured success tokens. -/
def successProp (r : PayPalResponse) : Except PyErr Bool :=
  match getattrMethod r "ack" with
  | .error e => .error e
  | .ok v =>
    match pyUpperValue v with
    | .error e => .error e
    | .ok u =>
      .ok (decide (u = r.config.ACK_SUCCESS ∨ u = r.config.ACK_SUCCESS_WITH_WARNING))

/-- `Mapping.items` over a key list: each stored key is looked up through
`__getitem__`; the first failing lookup aborts with its error. -/
def itemsList (r : PayPalResponse) : RawDict → Except PyErr (List (String × PyValue))
  | [] => .ok []
  | (k, _) :: rest =>
    match getitem r k, itemsList r rest with
    | .ok v, .ok xs => .ok ((k, v) :: xs)
    | .error e, _ => .error e
    | _, .error e => .error e

/-- `dict(self.items())`: iterate the keys of `raw` and fetch each through
`__getitem__`. -/
def itemsE (r : PayPalResponse) : Except PyErr (List (String × PyValue)) :=
  itemsList r r.raw

/-- Lexicographic comparison of character lists, the key order `pformat` uses
to sort the dictionary. -/
def charListLe : List Char → List Char → Bool
  | [], _ => true
  | _ :: _, [] => false
  | a :: as, b :: bs => if a = b then charListLe as bs else decide (a.toNat < b.toNat)

/-- Insertion step of the key sort. -/
def insertByKey (p : String × PyValue) :
    List (String × PyValue) → List (String × PyValue)
  | [] => [p]
  | q :: rest =>
    if charListLe p.1.toList q.1.toList then p :: q :: rest
    else q :: insertByKey p rest

/-- Key-sorted item list, as `pformat` sorts dictionary keys. -/
def sortByKey (xs : List (String × PyValue)) : List (String × PyValue) :=
  xs.foldr insertByKey []

/-- Rendering of one collapsed value (the exact textual layout of `pformat` is
abstracted to a fixed deterministic serialization; no claim depends on it). -/
def pyValueRender : PyValue → String
  | .scalar s => s
  | .seq vs => String.intercalate ", " vs

/-- Deterministic pretty-print of the collapsed dictionary, standing for
`pformat(dict(self.items()))`. -/
def renderDict (xs : List (String × PyValue)) : String :=
  String.intercalate "\n" ((sortByKey xs).map fun p => p.1 ++ ": " ++ pyValueRender p.2)

/-- `__str__`: pretty-print of `dict(self.items())`; it fails with the
`KeyError` of the first key whose uppercased form is not stored. -/
def strMethod (r : PayPalResponse) : Except PyErr String :=
  match itemsE r with
  | .ok xs => .ok (renderDict xs)
  | .error e => .error e

/-- `formatted`: the source gives it the same body as `__str__`. -/
def formatted (r : PayPalResponse) : Except PyErr String :=
  match itemsE r with
  | .ok xs => .ok (renderDict xs)
  | .error e => .error e

/-- `__init__`: store `parse_qs(query_string)` and the config, then eagerly
render `self.__str__()` for the debug log line; a `KeyError` raised by that
rendering escapes the constructor. -/
def mkResponse (query_string : String) (config : PayPalConfig) :
    Except PyErr PayPalResponse :=
  match strMethod ⟨parse_qs query_string, config⟩ with
  | .ok _ => .ok ⟨parse_qs query_string, config⟩
  | .error e => .error e

/-- `__len__`: the number of keys of `raw`. -/
def lenMethod (r : PayPalResponse) : Nat :=
  r.raw.length

/-- What a full Python attribute access on the object can produce: one of the
real members (the `raw` dict, the `config` reference, a bound method, the
boolean computed by the `success` property) or a response field value obtained
through the `__getattr__` fallback. -/
inductive AttrResult where
  | rawDict (d : RawDict)
  | configObj (c : PayPalConfig)
  | boundMethod (name : String)
  | boolVal (b : Bool)
  | fieldValue (v : PyValue)
  deriving DecidableEq

/-- Methods defined on the class (its own and the `Mapping` mixins): attribute
access under exactly these names yields the bound method, never a response
field. -/
def classMethodNames : List String :=
  ["formatted", "get", "items", "keys", "values",
   "__str__", "__repr__", "__getattr__", "__getitem__",
   "__iter__", "__len__", "__contains__", "__eq__", "__ne__"]

/-- All member names of a constructed instance: the two instance attributes,
the `success` property and the methods. -/
def memberNames : List String :=
  "raw" :: "config" :: "success" :: classMethodNames

/-- Whether an exception is a Python `AttributeError` (either shape). -/
def isAttributeError : PyErr → Bool
  | .fieldAttributeError _ => true
  | .objectAttributeError _ _ => true
  | .keyError _ => false

/-- Full Python attribute lookup on the object: instance attributes and class
attributes win over `__getattr__`; the `success` property is evaluated, and if
its getter raises an `AttributeError` the lookup falls back to `__getattr__`
(standard descriptor-protocol behavior); names that are not members go to
`__getattr__`. -/
def pyGetattr (r : PayPalResponse) (name : String) : Except PyErr AttrResult :=
  if name = "raw" then .ok (.rawDict r.raw)
  else if name = "config" then .ok (.configObj r.config)
  else if name = "success" then
    match successProp r with
    | .ok b => .ok (.boolVal b)
    | .error e =>
      if isAttributeError e then
        match getattrMethod r name with
        | .ok v => .ok (.fieldValue v)
        | .error e2 => .error e2
      else .error e
  else if name ∈ classMethodNames then .ok (.boundMethod name)
  else
    match getattrMethod r name with
    | .ok v => .ok (.fieldValue v)
    | .error e => .error e

/-- A concrete configuration with the two PayPal success tokens, used in
concrete scenarios. -/
def cfg0 : PayPalConfig :=
  ⟨"SUCCESS", "SUCCESSWITHWARNING"⟩

/-- Lookup in an association list succeeds exactly on the stored key names. -/
theorem alistFind_isSome_iff (d : RawDict) (k : String) :
    (alistFind d k).isSome = true ↔ k ∈ d.map Prod.fst := by
  induction d with
  | nil => simp [alistFind]
  | cons p rest ih =>
    obtain ⟨k1, vs⟩ := p
    by_cases h : k = k1 <;> simp [alistFind, h, ih]

/-- Effect of one accumulation step on lookups. -/
theorem alistFind_dictAppend (d : RawDict) (k v k2 : String) :
    alistFind (dictAppend d k v) k2 =
      if k2 = k then some ((alistFind d k).getD [] ++ [v]) else alistFind d k2 := by
  induction d with
  | nil =>
    by_cases h : k2 = k <;> simp [dictAppend, alistFind, h]
  | cons p rest ih =>
    obtain ⟨k1, vs⟩ := p
    by_cases h1 : k1 = k
    · subst h1
      by_cases h2 : k2 = k1 <;> simp [dictAppend, alistFind, h2]
    · have h4 : ¬ k = k1 := fun hc => h1 hc.symm
      by_cases h2 : k2 = k1
      · have h3 : ¬ k2 = k := by
          intro hc
          exact h1 (h2.symm.trans hc)
        simp [dictAppend, alistFind, h1, h2, h3]
      · by_cases h3 : k2 = k
        · subst h3
          simp [dictAppend, alistFind, h1, h2, h4, ih]
        · simp [dictAppend, alistFind, h1, h2, h3, h4, ih]

/-- Effect of one accumulation step on the stored key names. -/
theorem mem_keys_dictAppend (d : RawDict) (k v k2 : String) :
    k2 ∈ (dictAppend d k v).map Prod.fst ↔ k2 ∈ d.map Prod.fst ∨ k2 = k := by
  induction d with
  | nil => simp [dictAppend]
  | cons p rest ih =>
    obtain ⟨k1, vs⟩ := p
    by_cases h : k1 = k
    · subst h
      simp [dictAppend]
      tauto
    · simp [dictAppend, h, ih]
      tauto

/-- One accumulation step keeps the stored key names distinct. -/
theorem nodup_keys_dictAppend (d : RawDict) (k v : String)
    (h : (d.map Prod.fst).Nodup) : ((dictAppend d k v).map Prod.fst).Nodup := by
  induction d with
  | nil => simp [dictAppend]
  | cons p rest ih =>
    obtain ⟨k1, vs⟩ := p
    simp only [List.map_cons, List.nodup_cons] at h
    by_cases hk : k1 = k
    · subst hk
      simpa [dictAppend] using h
    · simp only [dictAppend, hk, if_false, List.map_cons, List.nodup_cons]
      refine ⟨?_, ih h.2⟩
      intro hc
      rw [mem_keys_dictAppend] at hc
      rcases hc with hc | hc
      · exact h.1 hc
      · exact hk hc

/-- The `parse_qs` accumulation fold, with the accumulator explicit. -/
def qsFold (pairs : List (String × String)) (d : RawDict) : RawDict :=
  pairs.foldl (fun d2 p => dictAppend d2 p.1 p.2) d

theorem parse_qs_eq_qsFold (q : String) : parse_qs q = qsFold (parse_qsl q) [] := rfl

theorem qsFold_cons (p : String × String) (pairs : List (String × String)) (d : RawDict) :
    qsFold (p :: pairs) d = qsFold pairs (dictAppend d p.1 p.2) := rfl

/-- Key names accumulated by the fold. -/
theorem mem_keys_qsFold (pairs : List (String × String)) (d : RawDict) (k : String) :
    k ∈ (qsFold pairs d).map Prod.fst ↔ k ∈ d.map Prod.fst ∨ k ∈ pairs.map Prod.fst := by
  induction pairs generalizing d with
  | nil => simp [qsFold]
  | cons p rest ih =>
    rw [qsFold_cons, ih, mem_keys_dictAppend]
    simp
    tauto

/-- The fold keeps the stored key names distinct. -/
theorem nodup_keys_qsFold (pairs : List (String × String)) (d : RawDict)
    (h : (d.map Prod.fst).Nodup) : ((qsFold pairs d).map Prod.fst).Nodup := by
  induction pairs generalizing d with
  | nil => exact h
  | cons p rest ih => exact ih _ (nodup_keys_dictAppend _ _ _ h)

/-- Lookup after the fold: the values of the matching pairs are appended, in
order, to whatever the accumulator already stored for that name. -/
theorem alistFind_qsFold (pairs : List (String × String)) (d : RawDict) (k : String) :
    alistFind (qsFold pairs d) k =
      match alistFind d k with
      | some vs =>
        some (vs ++ pairs.filterMap fun p => if p.1 = k then some p.2 else none)
      | none =>
        if pairs.filterMap (fun p => if p.1 = k then some p.2 else none) = [] then none
        else some (pairs.filterMap fun p => if p.1 = k then some p.2 else none) := by
  induction pairs generalizing d with
  | nil =>
    cases hf : alistFind d k <;> simp [qsFold, hf]
  | cons p rest ih =>
    obtain ⟨a, b⟩ := p
    rw [qsFold_cons, ih]
    by_cases hp : a = k
    · subst hp
      cases hf : alistFind d a with
      | none => simp [alistFind_dictAppend, hf, List.filterMap_cons]
      | some vs => simp [alistFind_dictAppend, hf, List.filterMap_cons, List.append_assoc]
    · have hp2 : ¬ k = a := fun hc => hp hc.symm
      have hred : (if a = k then some b else none) = (none : Option String) := if_neg hp
      cases hf : alistFind d k with
      | none =>
        rw [alistFind_dictAppend, if_neg hp2, hf, List.filterMap_cons, hred]
      | some vs =>
        rw [alistFind_dictAppend, if_neg hp2, hf, List.filterMap_cons, hred]

/-- Keys of the decoded mapping are exactly the decoded field names. -/
theorem mem_keys_parse_qs (q : String) (k : String) :
    k ∈ (parse_qs q).map Prod.fst ↔ k ∈ (parse_qsl q).map Prod.fst := by
  rw [parse_qs_eq_qsFold, mem_keys_qsFold]
  simp

/-- The decoded mapping has distinct keys. -/
theorem nodup_keys_parse_qs (q : String) : ((parse_qs q).map Prod.fst).Nodup := by
  rw [parse_qs_eq_qsFold]
  exact nodup_keys_qsFold _ _ (by simp)

/-- Lookup in the decoded mapping collects, in decoding order, the values of
exactly the pairs whose name matches case-sensitively. -/
theorem alistFind_parse_qs (q : String) (k : String) :
    alistFind (parse_qs q) k =
      (if (parse_qsl q).filterMap (fun p => if p.1 = k then some p.2 else none) = []
       then none
       else some ((parse_qsl q).filterMap fun p => if p.1 = k then some p.2 else none)) := by
  rw [parse_qs_eq_qsFold]
  have h := alistFind_qsFold (parse_qsl q) [] k
  simpa [alistFind] using h

/-- The number of stored entries is the number of distinct decoded names. -/
theorem length_parse_qs (q : String) :
    (parse_qs q).length = ((parse_qsl q).map Prod.fst).dedup.length := by
  classical
  have h1 : ((parse_qs q).map Prod.fst).Nodup := nodup_keys_parse_qs q
  have h2 : ((parse_qs q).map Prod.fst).toFinset =
      ((parse_qsl q).map Prod.fst).toFinset := by
    ext x
    rw [List.mem_toFinset, List.mem_toFinset]
    exact mem_keys_parse_qs q x
  have h3 : (parse_qs q).length = ((parse_qs q).map Prod.fst).length := by simp
  rw [h3, ← List.toFinset_card_of_nodup h1, h2, List.card_toFinset]

/-- Success of `__getitem__` is exactly presence of the uppercased key. -/
theorem getitem_isOk_iff (r : PayPalResponse) (k : String) :
    (getitem r k).isOk = true ↔ (alistFind r.raw (pyUpper k)).isSome = true := by
  cases hf : alistFind r.raw (pyUpper k) with
  | none => simp [getitem, hf, Except.isOk, Except.toBool]
  | some vs =>
    cases vs with
    | nil => simp [getitem, hf, Except.isOk, Except.toBool]
    | cons a t => cases t <;> simp [getitem, hf, Except.isOk, Except.toBool]

/-- Case analysis of the `success` property body over the stored `ACK` entry. -/
theorem successProp_cases (r : PayPalResponse) :
    successProp r =
      (match alistFind r.raw "ACK" with
       | none => .error (.fieldAttributeError "ack")
       | some [v] =>
         .ok (decide (pyUpper v = r.config.ACK_SUCCESS ∨
           pyUpper v = r.config.ACK_SUCCESS_WITH_WARNING))
       | some _ => .error (.objectAttributeError "list" "upper")) := by
  have hup : pyUpper "ack" = "ACK" := by decide
  cases hf : alistFind r.raw "ACK" with
  | none => simp [successProp, getattrMethod, getitem, hup, hf]
  | some vs =>
    cases vs with
    | nil => simp [successProp, getattrMethod, getitem, pyUpperValue, hup, hf]
    | cons a t =>
      cases t <;> simp [successProp, getattrMethod, getitem, pyUpperValue, hup, hf]

/-- `items` succeeds when every stored key has its uppercased form stored. -/
theorem itemsList_isOk (r : PayPalResponse) (l : RawDict)
    (h : ∀ p ∈ l, pyUpper p.1 ∈ r.raw.map Prod.fst) :
    (itemsList r l).isOk = true := by
  induction l with
  | nil => rfl
  | cons p rest ih =>
    obtain ⟨k, vs⟩ := p
    have h1 : (alistFind r.raw (pyUpper k)).isSome = true := by
      rw [alistFind_isSome_iff]
      exact h (k, vs) (by simp)
    have h3 : (getitem r k).isOk = true := (getitem_isOk_iff r k).mpr h1
    have h2 := ih fun p2 hp2 => h p2 (by simp [hp2])
    cases hg : getitem r k with
    | error e => rw [hg] at h3; simp [Except.isOk, Except.toBool] at h3
    | ok v =>
      cases hi : itemsList r rest with
      | error e => rw [hi] at h2; simp [Except.isOk, Except.toBool] at h2
      | ok xs => simp [itemsList, hg, hi, Except.isOk, Except.toBool]

/-- Every pair produced by `items` is what `__getitem__` returns for its key. -/
theorem itemsList_mem (r : PayPalResponse) (l : RawDict) (xs : List (String × PyValue))
    (h : itemsList r l = .ok xs) : ∀ p ∈ xs, getitem r p.1 = .ok p.2 := by
  induction l generalizing xs with
  | nil =>
    simp only [itemsList] at h
    cases h
    simp
  | cons q rest ih =>
    obtain ⟨k, vs⟩ := q
    cases hg : getitem r k with
    | error e => simp [itemsList, hg] at h
    | ok v =>
      cases hi : itemsList r rest with
      | error e => simp [itemsList, hg, hi] at h
      | ok ys =>
        simp only [itemsList, hg, hi] at h
        cases h
        intro p hp
        rcases List.mem_cons.mp hp with hp1 | hp1
        · rw [hp1]
          exact hg
        · exact ih ys hi p hp1

/-- `__str__` succeeds when `dict(self.items())` does. -/
theorem strMethod_isOk (r : PayPalResponse) (h : (itemsE r).isOk = true) :
    (strMethod r).isOk = true := by
  cases hi : itemsE r with
  | ok xs => simp [strMethod, hi, Except.isOk, Except.toBool]
  | error e => rw [hi] at h; simp [Except.isOk, Except.toBool] at h

/-- Construction succeeds when the eager log rendering does. -/
theorem mkResponse_isOk_of (q : String) (cfg : PayPalConfig)
    (h : (strMethod ⟨parse_qs q, cfg⟩).isOk = true) : (mkResponse q cfg).isOk = true := by
  cases hs : strMethod ⟨parse_qs q, cfg⟩ with
  | ok s => simp [mkResponse, hs, Except.isOk, Except.toBool]
  | error e => rw [hs] at h; simp [Except.isOk, Except.toBool] at h

/-- C1 counterexample.  The claim's scenario `"ack=Failure&L_ERRORCODE0=10001"`
does not make `isSuccess` return false: the field is stored under the decoded
lowercase key `ack`, so construction itself raises `KeyError "ACK"` while
rendering the log line, and the `success` body on that decoded mapping raises
the field-not-found `AttributeError` for `ack` instead of returning false. -/
theorem C1_counterexample :
    mkResponse "ack=Failure&L_ERRORCODE0=10001" cfg0 = .error (.keyError "ACK")
    ∧ successProp ⟨parse_qs "ack=Failure&L_ERRORCODE0=10001", cfg0⟩ =
        .error (.fieldAttributeError "ack")
    ∧ successProp ⟨parse_qs "ack=Failure&L_ERRORCODE0=10001", cfg0⟩ ≠ .ok false := by
  refine ⟨by decide, by decide, by decide⟩

/-- C1 (amended).  The `success` body returns a boolean exactly for records
whose literal stored key `ACK` holds a single value `v`: true iff `upper v`
equals `ACK_SUCCESS` or `ACK_SUCCESS_WITH_WARNING`, false for any other such
value; when the key `ACK` is absent from `raw` (as it is when the field was
encoded with a non-uppercase key, since keys are stored as decoded) it raises
the field-not-found error for `ack`. -/
theorem C1_success_requires_uppercase_ack (r : PayPalResponse) :
    (∀ v, alistFind r.raw "ACK" = some [v] →
      successProp r =
        .ok (decide (pyUpper v = r.config.ACK_SUCCESS ∨
          pyUpper v = r.config.ACK_SUCCESS_WITH_WARNING)))
    ∧ (alistFind r.raw "ACK" = none →
      successProp r = .error (.fieldAttributeError "ack")) := by
  constructor
  · intro v hf
    rw [successProp_cases, hf]
  · intro hf
    rw [successProp_cases, hf]

/-- C1 witness at a concrete failing ACK value. -/
theorem C1_witness : successProp ⟨[("ACK", ["Failure"])], cfg0⟩ = .ok false := by
  rw [(C1_success_requires_uppercase_ack ⟨[("ACK", ["Failure"])], cfg0⟩).1 "Failure"
    (by decide)]
  decide

/-- C2 counterexample.  A record constructed from `"ack=1&ACK=2"` (construction
succeeds) stores the non-uppercase key `ack`, and the field stored under it is
not retrievable under any casing: every lookup of `ack`/`ACK` returns the
entry stored under `ACK`. -/
theorem C2_counterexample :
    (mkResponse "ack=1&ACK=2" cfg0).isOk = true
    ∧ "ack" ∈ (parse_qs "ack=1&ACK=2").map Prod.fst
    ∧ pyUpper "ack" ≠ "ack"
    ∧ alistFind (parse_qs "ack=1&ACK=2") "ack" = some ["1"]
    ∧ getitem ⟨parse_qs "ack=1&ACK=2", cfg0⟩ "ack" = .ok (.scalar "2")
    ∧ getitem ⟨parse_qs "ack=1&ACK=2", cfg0⟩ "ACK" = .ok (.scalar "2") := by
  refine ⟨by decide, by decide, by decide, by decide, by decide, by decide⟩

/-- C2 (amended).  Keys of `raw` are stored exactly as decoded, with no case
canonicalization; only the lookup normalizes the requested key to uppercase,
so a lookup succeeds precisely when the fully-uppercase form of the requested
name is itself a stored key. -/
theorem C2_keys_stored_as_decoded :
    (∀ q k, k ∈ (parse_qs q).map Prod.fst ↔ k ∈ (parse_qsl q).map Prod.fst)
    ∧ (∀ (r : PayPalResponse) (k : String),
        (getitem r k).isOk = true ↔ (alistFind r.raw (pyUpper k)).isSome = true) :=
  ⟨mem_keys_parse_qs, getitem_isOk_iff⟩

/-- C3 counterexample.  For `"a=1&A=2"` (construction succeeds) the size is 2,
while the number of case-insensitively distinct field names is 1: keys
differing only by case do not collapse to a single entry. -/
theorem C3_counterexample :
    (mkResponse "a=1&A=2" cfg0).isOk = true
    ∧ lenMethod ⟨parse_qs "a=1&A=2", cfg0⟩ = 2
    ∧ ((parse_qsl "a=1&A=2").map fun p => pyUpper p.1).dedup.length = 1 := by
  refine ⟨by decide, by decide, by decide⟩

/-- C3 (amended).  The size equals the number of case-sensitively distinct
decoded field names, and each stored entry collects, in decoding order, the
values of exactly the pairs whose name matches case-sensitively. -/
theorem C3_size_counts_case_sensitive_names (q : String) (cfg : PayPalConfig) :
    lenMethod ⟨parse_qs q, cfg⟩ = ((parse_qsl q).map Prod.fst).dedup.length
    ∧ (∀ k, alistFind (parse_qs q) k =
        (if (parse_qsl q).filterMap (fun p => if p.1 = k then some p.2 else none) = []
         then none
         else some ((parse_qsl q).filterMap fun p => if p.1 = k then some p.2 else none))) :=
  ⟨length_parse_qs q, fun k => alistFind_parse_qs q k⟩

/-- C4 counterexample.  In the record built from `"ack=one&ACK=two"` the field
`ack` is present with exactly one value `one`, yet `get("ack")` returns the
scalar `two` (the entry stored under `ACK`), not `one`. -/
theorem C4_counterexample :
    (mkResponse "ack=one&ACK=two" cfg0).isOk = true
    ∧ alistFind (parse_qs "ack=one&ACK=two") "ack" = some ["one"]
    ∧ getitem ⟨parse_qs "ack=one&ACK=two", cfg0⟩ "ack" = .ok (.scalar "two") := by
  refine ⟨by decide, by decide, by decide⟩

/-- C4 (amended).  For every key whose uppercased form is a stored key, a
one-element stored sequence is returned as the bare scalar and a longer
sequence is returned whole and in order; the collapsing happens at read time
(the model reads `raw`, which keeps the full sequences, and never writes).
A field stored under a non-uppercase key is never consulted. -/
theorem C4_scalar_collapsing (r : PayPalResponse) (k : String) :
    (∀ v, alistFind r.raw (pyUpper k) = some [v] → getitem r k = .ok (.scalar v))
    ∧ (∀ vs, alistFind r.raw (pyUpper k) = some vs → 1 < vs.length →
        getitem r k = .ok (.seq vs)) := by
  constructor
  · intro v hf
    simp [getitem, hf]
  · intro vs hf hlen
    rcases vs with _ | ⟨a, _ | ⟨b, t⟩⟩
    · simp at hlen
    · simp at hlen
    · simp [getitem, hf]

/-- C4 witness: a two-element field comes back as the whole ordered sequence. -/
theorem C4_witness :
    getitem ⟨[("AMT", ["10.00", "20.00"])], cfg0⟩ "amt" = .ok (.seq ["10.00", "20.00"]) :=
  (C4_scalar_collapsing ⟨[("AMT", ["10.00", "20.00"])], cfg0⟩ "amt").2
    ["10.00", "20.00"] (by decide) (by decide)

/-- C5.  Lookup is case-insensitive in the requested key: two requests whose
uppercased forms agree produce identical `__getitem__` results, and their
`__getattr__` results succeed together with the same value (on failure the
errors differ only in carrying each originally requested name). -/
theorem C5_case_insensitive_lookup (r : PayPalResponse) (k1 k2 : String)
    (h : pyUpper k1 = pyUpper k2) :
    getitem r k1 = getitem r k2
    ∧ (getattrMethod r k1).isOk = (getattrMethod r k2).isOk
    ∧ (∀ v, getattrMethod r k1 = .ok v → getattrMethod r k2 = .ok v) := by
  have hg : getitem r k1 = getitem r k2 := by
    simp only [getitem, h]
  refine ⟨hg, ?_, ?_⟩
  · cases hg2 : getitem r k2 with
    | ok v => simp [getattrMethod, hg, hg2]
    | error e => cases e <;> simp [getattrMethod, hg, hg2, Except.isOk, Except.toBool]
  · intro v hv
    cases hg2 : getitem r k2 with
    | ok w =>
      simp only [getattrMethod, hg, hg2] at hv
      simp only [getattrMethod, hg2]
      exact hv
    | error e => cases e <;> simp [getattrMethod, hg, hg2] at hv

/-- C5 witness at the concrete casings of the claim. -/
theorem C5_witness :
    getitem ⟨[("ACK", ["X"])], cfg0⟩ "ack" = getitem ⟨[("ACK", ["X"])], cfg0⟩ "Ack" :=
  (C5_case_insensitive_lookup ⟨[("ACK", ["X"])], cfg0⟩ "ack" "Ack" (by decide)).1

/-- C6.  For a key whose uppercased form is absent, `__getitem__` raises
`KeyError` carrying the uppercased key and `__getattr__` re-raises it as the
field-not-found `AttributeError` carrying exactly the name as passed in. -/
theorem C6_absent_key_errors (r : PayPalResponse) (k : String)
    (h : alistFind r.raw (pyUpper k) = none) :
    getitem r k = .error (.keyError (pyUpper k))
    ∧ getattrMethod r k = .error (.fieldAttributeError k) := by
  have hg : getitem r k = .error (.keyError (pyUpper k)) := by
    simp [getitem, h]
  exact ⟨hg, by simp [getattrMethod, hg]⟩

/-- C6 witness: the error carries the mixed-case name exactly as passed. -/
theorem C6_witness :
    getattrMethod ⟨[], cfg0⟩ "Ack" = .error (.fieldAttributeError "Ack") :=
  (C6_absent_key_errors ⟨[], cfg0⟩ "Ack" (by decide)).2

/-- C7 counterexample.  Construction is not total: for input `"ack=1"` the
constructor's eager log rendering looks every stored key up through
`__getitem__`, which uppercases it, and raises `KeyError "ACK"`. -/
theorem C7_counterexample :
    mkResponse "ack=1" cfg0 = .error (.keyError "ACK") := by
  decide

/-- C7 (amended).  Construction succeeds whenever the uppercased form of every
stored key is itself stored (in particular for every all-uppercase input and
for the empty input); the empty input yields the empty record, on which every
lookup fails with the respective not-found error and the `success` body raises
the field-not-found error for `ack` (surfacing through full attribute access
as the one for `success`). -/
theorem C7_construction (cfg : PayPalConfig) :
    (∀ q : String,
      (∀ k ∈ (parse_qs q).map Prod.fst, pyUpper k ∈ (parse_qs q).map Prod.fst) →
      (mkResponse q cfg).isOk = true)
    ∧ mkResponse "" cfg = .ok ⟨[], cfg⟩
    ∧ lenMethod ⟨[], cfg⟩ = 0
    ∧ (∀ k : String, getitem ⟨[], cfg⟩ k = .error (.keyError (pyUpper k)))
    ∧ (∀ k : String, getattrMethod ⟨[], cfg⟩ k = .error (.fieldAttributeError k))
    ∧ successProp ⟨[], cfg⟩ = .error (.fieldAttributeError "ack")
    ∧ pyGetattr ⟨[], cfg⟩ "success" = .error (.fieldAttributeError "success") := by
  refine ⟨?_, rfl, rfl, ?_, ?_, rfl, rfl⟩
  · intro q h
    apply mkResponse_isOk_of
    apply strMethod_isOk
    apply itemsList_isOk
    intro p hp
    exact h p.1 (List.mem_map_of_mem Prod.fst hp)
  · intro k
    simp [getitem, alistFind]
  · intro k
    simp [getattrMethod, getitem, alistFind]

/-- C7 witness: an uppercase-keyed input constructs successfully. -/
theorem C7_witness : (mkResponse "A=1" cfg0).isOk = true :=
  (C7_construction cfg0).1 "A=1" (by decide)

/-- C8.  For every successfully constructed record, `formatted` and `__str__`
are the same function of the record, the rendering succeeds (and, the model
being pure, is the same string every time it is recomputed), and every item of
the rendered dictionary is exactly what `__getitem__` returns for its key, so
both operations render the collapsed mapping. -/
theorem C8_rendering (q : String) (cfg : PayPalConfig) (r : PayPalResponse)
    (h : mkResponse q cfg = .ok r) :
    formatted r = strMethod r
    ∧ (strMethod r).isOk = true
    ∧ (∀ xs, itemsE r = .ok xs → ∀ p ∈ xs, getitem r p.1 = .ok p.2) := by
  have hr : r = ⟨parse_qs q, cfg⟩ ∧ (strMethod ⟨parse_qs q, cfg⟩).isOk = true := by
    cases hs : strMethod ⟨parse_qs q, cfg⟩ with
    | ok s =>
      simp only [mkResponse, hs] at h
      cases h
      exact ⟨rfl, by simp [hs, Except.isOk, Except.toBool]⟩
    | error e => simp [mkResponse, hs] at h
  refine ⟨rfl, ?_, ?_⟩
  · rw [hr.1]
    exact hr.2
  · intro xs hxs p hp
    exact itemsList_mem r r.raw xs hxs p hp

/-- C8 witness at a concrete record. -/
theorem C8_witness :
    formatted ⟨[("ACK", ["Success"])], cfg0⟩ = strMethod ⟨[("ACK", ["Success"])], cfg0⟩ :=
  (C8_rendering "ACK=Success" cfg0 ⟨[("ACK", ["Success"])], cfg0⟩ (by decide)).1

/-- C9.  With `ACK` stored with more than one value, the `success` body
returns no boolean and raises no field-not-found error: the lookup returns the
whole list and the `.upper()` call on it raises the missing-method
`AttributeError` of the list object; with exactly one value a boolean is
returned, so the erroring branch is avoided precisely then. -/
theorem C9_multivalued_ack (r : PayPalResponse) :
    (∀ vs, alistFind r.raw "ACK" = some vs → 1 < vs.length →
      successProp r = .error (.objectAttributeError "list" "upper")
      ∧ (∀ b, successProp r ≠ .ok b)
      ∧ (∀ n, successProp r ≠ .error (.fieldAttributeError n)))
    ∧ (∀ v, alistFind r.raw "ACK" = some [v] → ∃ b, successProp r = .ok b) := by
  constructor
  · intro vs hf hlen
    rcases vs with _ | ⟨a, _ | ⟨b2, t⟩⟩
    · simp at hlen
    · simp at hlen
    · have hs : successProp r = .error (.objectAttributeError "list" "upper") := by
        rw [successProp_cases, hf]
      exact ⟨hs, by simp [hs], by simp [hs]⟩
  · intro v hf
    refine ⟨decide (pyUpper v = r.config.ACK_SUCCESS ∨
      pyUpper v = r.config.ACK_SUCCESS_WITH_WARNING), ?_⟩
    rw [successProp_cases, hf]

/-- C9 witness at a concrete two-valued ACK. -/
theorem C9_witness :
    successProp ⟨[("ACK", ["a", "b"])], cfg0⟩ =
      .error (.objectAttributeError "list" "upper") :=
  ((C9_multivalued_ack ⟨[("ACK", ["a", "b"])], cfg0⟩).1 ["a", "b"]
    (by decide) (by decide)).1

/-- C10 counterexample.  The record built from `"FORMATTED=x"` stores a field
whose name collides case-insensitively with the member `formatted`; attribute
access under the member's own name returns the member, but the field does not
remain reachable only through dict-style get: attribute access under the
stored casing `FORMATTED` returns the field value too. -/
theorem C10_counterexample :
    (mkResponse "FORMATTED=x" cfg0).isOk = true
    ∧ pyGetattr ⟨parse_qs "FORMATTED=x", cfg0⟩ "formatted" = .ok (.boundMethod "formatted")
    ∧ pyGetattr ⟨parse_qs "FORMATTED=x", cfg0⟩ "FORMATTED" = .ok (.fieldValue (.scalar "x"))
    ∧ getitem ⟨parse_qs "FORMATTED=x", cfg0⟩ "formatted" = .ok (.scalar "x") := by
  refine ⟨by decide, by decide, by decide, by decide⟩

/-- C10 (amended).  Attribute access consults the decoded mapping exactly for
names that are not (case-sensitively) members; access under a member's own
name yields the member, while the colliding field stays reachable through
dict-style get under any casing and through attribute access under any
non-member casing of its name. -/
theorem C10_attribute_access (r : PayPalResponse) (name : String)
    (h : ¬ name ∈ memberNames) :
    (pyGetattr r name =
      (match getattrMethod r name with
       | .ok v => .ok (.fieldValue v)
       | .error e => .error e))
    ∧ pyGetattr r "formatted" = .ok (.boundMethod "formatted")
    ∧ pyGetattr r "raw" = .ok (.rawDict r.raw)
    ∧ pyGetattr r "config" = .ok (.configObj r.config) := by
  refine ⟨?_, ?_, ?_, ?_⟩
  · simp only [memberNames, List.mem_cons] at h
    push_neg at h
    obtain ⟨h1, h2, h3, h4⟩ := h
    simp [pyGetattr, h1, h2, h3, h4]
  · simp [pyGetattr, classMethodNames]
  · rfl
  · rfl

/-- C10 witness: the field stored under `FORMATTED` is reachable by attribute
access under that non-member casing. -/
theorem C10_witness :
    pyGetattr ⟨[("FORMATTED", ["x"])], cfg0⟩ "FORMATTED" =
      .ok (.fieldValue (.scalar "x")) := by
  rw [(C10_attribute_access ⟨[("FORMATTED", ["x"])], cfg0⟩ "FORMATTED" (by decide)).1]
  decide

